import Mathlib

/-!
Verification development for the leaderboard subsystem (chat / voice /
star-of-the-week cogs).  Times are measured in minutes and embedded as
rationals; dates are embedded as integers (one integer per local calendar
day).  Each definition is a direct shallow embedding of the corresponding
Python function, restricted to the fields the properties mention.
-/

namespace Poison

/-- Cap on a single session, in minutes (`self.max_session_duration = 10080`). -/
def maxSessionDuration : ℚ := 10080

/-- Python `round(x, 2)` as applied in `_increment_voice_time`: rounding to two
decimal places, with ties rounded to the even hundredth. -/
def round2 (x : ℚ) : ℚ :=
  let y := 100 * x
  let f := Int.floor y
  if y - f < 1 / 2 then (f : ℚ) / 100
  else if y - f > 1 / 2 then ((f + 1 : ℤ) : ℚ) / 100
  else if f % 2 = 0 then (f : ℚ) / 100 else ((f + 1 : ℤ) : ℚ) / 100

/-- `_increment_voice_time` projected onto one member's accumulated counter:
non-positive deltas are skipped, deltas are rounded to two decimals and capped
at `maxSessionDuration`, then added to the persisted counter. -/
def incrementVoiceTime (minutes persisted : ℚ) : ℚ :=
  if minutes ≤ 0 then persisted
  else
    let m := round2 minutes
    let m := if m > maxSessionDuration then maxSessionDuration else m
    persisted + m

/-- The tracker state projected onto a single (guild, member) key:
`voice_sessions` entry, `session_save_queue` entry, and the member's
accumulated persisted voice minutes in `user_stats`. -/
structure MemberState where
  session : Option ℚ
  queued : Option ℚ
  persisted : ℚ
deriving DecidableEq

/-- Presence / timer events affecting one member, each carrying the current
time in minutes: plain joins and leaves, moves involving the AFK channel,
moves between two active channels, the 10-minute heartbeat flush
(`save_voice_sessions_periodically`), and the stale-session sweep
(`_cleanup_stale_sessions`). -/
inductive VoiceEvent where
  | join (t : ℚ)
  | leave (t : ℚ)
  | moveToAfk (t : ℚ)
  | moveFromAfk (t : ℚ)
  | moveActive (t : ℚ)
  | heartbeat (t : ℚ)
  | sweep (t : ℚ)
deriving DecidableEq

/-- `_process_save_queue` projected onto one member: the queued delta, if any,
is passed to `_increment_voice_time` and the queue entry cleared. -/
def processSaveQueue (s : MemberState) : MemberState :=
  match s.queued with
  | some m => { s with queued := none, persisted := incrementVoiceTime m s.persisted }
  | none => s

/-- One transition of the tracker for a single member, embedding the branches
of `on_voice_state_update`, the heartbeat task and the sweep.  A closing event
with `0 < minutes < maxSessionDuration` writes the delta into the member's
`session_save_queue` slot (a plain dictionary assignment in the source, which
overwrites any delta already queued under the same key); a leave at or past
the cap persists the cap immediately; a move into AFK at or past the cap
persists nothing (the source has no such branch there).  The heartbeat first
drains the queue, then persists `now - sessionStart` for the open session and
restarts it at `now`, except that a session at or past the cap is persisted at
the cap and deleted.  The sweep force-closes a session strictly past the cap,
persisting the cap and removing the session. -/
def voiceStep (s : MemberState) : VoiceEvent → MemberState
  | .join t => { s with session := some t }
  | .leave t =>
      match s.session with
      | some j =>
          let minutes := t - j
          if 0 < minutes ∧ minutes < maxSessionDuration then
            { s with session := none, queued := some minutes }
          else if maxSessionDuration ≤ minutes then
            { s with session := none,
                     persisted := incrementVoiceTime maxSessionDuration s.persisted }
          else { s with session := none }
      | none => s
  | .moveToAfk t =>
      match s.session with
      | some j =>
          let minutes := t - j
          if 0 < minutes ∧ minutes < maxSessionDuration then
            { s with session := none, queued := some minutes }
          else { s with session := none }
      | none => s
  | .moveFromAfk t => { s with session := some t }
  | .moveActive t =>
      match s.session with
      | some _ => s
      | none => { s with session := some t }
  | .heartbeat t =>
      let s1 := processSaveQueue s
      match s1.session with
      | some j =>
          let minutes := t - j
          if 0 < minutes ∧ minutes < maxSessionDuration then
            { s1 with session := some t,
                      persisted := incrementVoiceTime minutes s1.persisted }
          else if maxSessionDuration ≤ minutes then
            { s1 with session := none,
                      persisted := incrementVoiceTime maxSessionDuration s1.persisted }
          else s1
      | none => s1
  | .sweep t =>
      match s.session with
      | some j =>
          if maxSessionDuration < t - j then
            { s with session := none,
                     persisted := incrementVoiceTime maxSessionDuration s.persisted }
          else s
      | none => s

/-- Fold of `voiceStep` over an event trace. -/
def voiceRun (s : MemberState) (evs : List VoiceEvent) : MemberState :=
  evs.foldl voiceStep s

/-- The real elapsed active time of a trace: the sum of the lengths of the
intervals during which the member is present in a non-AFK channel.  The first
argument carries the start of the currently open interval, if any. -/
def activeMinutes : Option ℚ → List VoiceEvent → ℚ
  | _, [] => 0
  | none, VoiceEvent.join t :: evs => activeMinutes (some t) evs
  | none, VoiceEvent.moveFromAfk t :: evs => activeMinutes (some t) evs
  | some j, VoiceEvent.leave t :: evs => (t - j) + activeMinutes none evs
  | some j, VoiceEvent.moveToAfk t :: evs => (t - j) + activeMinutes none evs
  | o, _ :: evs => activeMinutes o evs

/-- Association-list lookup for member-keyed maps. -/
def lookupMember (l : List (ℕ × ℚ)) (u : ℕ) : Option ℚ :=
  match l with
  | [] => none
  | (v, x) :: rest => if v = u then some x else lookupMember rest u

/-- Upsert-increment into a member-keyed map, embedding the Mongo
`$inc ... upsert=true` applied to one counter field. -/
def upsertAdd (l : List (ℕ × ℚ)) (u : ℕ) (m : ℚ) : List (ℕ × ℚ) :=
  match l with
  | [] => [(u, m)]
  | (v, x) :: rest => if v = u then (v, x + m) :: rest else (v, x) :: upsertAdd rest u m

/-- `_increment_voice_time` acting on a whole member-keyed counter map. -/
def incrementVoiceTimeStore (u : ℕ) (minutes : ℚ) (p : List (ℕ × ℚ)) : List (ℕ × ℚ) :=
  if minutes ≤ 0 then p
  else
    let m := round2 minutes
    let m := if m > maxSessionDuration then maxSessionDuration else m
    upsertAdd p u m

/-- The cog's in-memory maps and the persisted counters, for several members
of one guild: `voice_sessions` (member to `sessionStart`), `session_save_queue`
(member to buffered delta), and the persisted per-member voice totals. -/
structure CogState where
  voice_sessions : List (ℕ × ℚ)
  session_save_queue : List (ℕ × ℚ)
  persisted : List (ℕ × ℚ)
deriving DecidableEq

/-- `_save_all_voice_sessions`, the shutdown drain run by `cog_unload`: if no
session is open it returns at once; otherwise it persists `now - sessionStart`
for every open session with positive elapsed time, then clears both the
session table and the save queue.  The buffered queue entries are cleared
without being persisted (the source never reads the queue here). -/
def saveAllVoiceSessions (now : ℚ) (st : CogState) : CogState :=
  if st.voice_sessions = [] then st
  else
    let p := st.voice_sessions.foldl
      (fun acc s =>
        let minutes := now - s.2
        if 0 < minutes then incrementVoiceTimeStore s.1 minutes acc else acc)
      st.persisted
    { voice_sessions := [], session_save_queue := [], persisted := p }

/-- One `user_stats` row, restricted to the fields the properties mention. -/
structure StatsRow where
  user_id : ℕ
  chat_weekly : ℚ
  voice_daily : ℚ
  voice_weekly : ℚ
  voice_monthly : ℚ
deriving DecidableEq

/-- One `weekly_history` archive document. -/
structure ArchiveDoc where
  kind : String
  period : String
  reset_date : ℚ
  stats : List StatsRow
deriving DecidableEq

/-- The persistent store for one guild: the `user_stats` rows, the
`weekly_history` archive collection, and the persisted
`last_voice_weekly_reset` timestamp of the guild config. -/
structure Store where
  rows : List StatsRow
  archives : List ArchiveDoc
  last_voice_weekly_reset : Option ℚ
deriving DecidableEq

/-- `_reset_daily_stats` (voice): one `update_many` setting `voice_daily` to 0
on every row of the guild.  Nothing is archived and no timestamp is written. -/
def resetDailyStats (s : Store) : Store :=
  { s with rows := s.rows.map (fun r => { r with voice_daily := 0 }) }

/-- `_reset_weekly_stats` (voice): snapshot the rows with `voice_weekly > 0`
into one archive document (skipped when there are none), then zero
`voice_weekly` on every row. -/
def resetWeeklyStats (now : ℚ) (s : Store) : Store :=
  let stats := s.rows.filter (fun r => decide (0 < r.voice_weekly))
  let archives :=
    if stats.isEmpty then s.archives
    else s.archives ++ [⟨"voice", "weekly", now, stats⟩]
  { s with archives := archives,
           rows := s.rows.map (fun r => { r with voice_weekly := 0 }) }

/-- The firing condition of the voice `weekly_reset` task for one guild,
from the source: with a recorded last reset, fire when at least 6.5 days have
elapsed and moreover it is Sunday at or after hour 12, or it is Monday, or at
least 7 full days have elapsed; with no recorded last reset, fire as soon as
voice tracking is enabled.  `weekday` is 0 for Monday through 6 for Sunday. -/
def voiceWeeklyShouldReset (lastReset : Option ℚ) (enabled : Bool)
    (nowUtc : ℚ) (weekday hour : ℕ) : Bool :=
  match lastReset with
  | some t =>
      let daysSince := ((nowUtc - t) / 60) / 24
      if 13 / 2 ≤ daysSince then
        if weekday = 6 ∧ 12 ≤ hour then true
        else if weekday = 0 then true
        else if 7 ≤ daysSince then true
        else false
      else false
  | none => enabled

/-- Outcome of one per-guild pass of the voice `weekly_reset` task. -/
inductive WeeklyOutcome where
  | skippedStar
  | evaluated (fired : Bool)
deriving DecidableEq

/-- One per-guild pass of the voice `weekly_reset` task: a guild holding a
`star_configs` document in the cog's own database (`poison_bot`, see
`SystemState`) is skipped before any reset condition is read; otherwise, when
the firing condition holds, the weekly stats are archived and zeroed and the
new `last_voice_weekly_reset` timestamp is persisted. -/
def voiceWeeklyTick (starConfigured enabled : Bool) (weekday hour : ℕ)
    (nowUtc : ℚ) (s : Store) : WeeklyOutcome × Store :=
  if starConfigured then (.skippedStar, s)
  else if voiceWeeklyShouldReset s.last_voice_weekly_reset enabled nowUtc weekday hour then
    let s1 := resetWeeklyStats nowUtc s
    (.evaluated true, { s1 with last_voice_weekly_reset := some nowUtc })
  else (.evaluated false, s)

/-- The firing condition of the voice `daily_reset` task for one guild: local
hour in the midnight window (`0 <= now.hour < 1`) and the entry of the
in-memory `self.last_daily_reset` map, when present, carries a local date
different from today's. -/
def voiceDailyShouldFire (hour : ℕ) (today : ℤ) (mem : Option ℤ) : Bool :=
  if hour < 1 then
    match mem with
    | some d => decide (d ≠ today)
    | none => true
  else false

/-- The in-memory state the daily evaluator keeps for one guild, together
with a count of how many times `_reset_daily_stats` has run. -/
structure DailyEvalState where
  lastDailyReset : Option ℤ
  resetCount : ℕ
deriving DecidableEq

/-- Events seen by the daily evaluator: a 5-minute tick carrying the local
hour and local date, and a process restart, which discards the in-memory
`self.last_daily_reset` map (it is never persisted). -/
inductive DailyEvent where
  | tick (hour : ℕ) (today : ℤ)
  | restart
deriving DecidableEq

/-- One step of the daily evaluator for one guild. -/
def dailyStep (s : DailyEvalState) : DailyEvent → DailyEvalState
  | .tick h d =>
      if voiceDailyShouldFire h d s.lastDailyReset then ⟨some d, s.resetCount + 1⟩
      else s
  | .restart => ⟨none, s.resetCount⟩

/-- Fold of `dailyStep` over an event sequence. -/
def dailyRun (s : DailyEvalState) (evs : List DailyEvent) : DailyEvalState :=
  evs.foldl dailyStep s

/-- Outcome of one per-guild pass of a reset evaluator, distinguishing a pass
whose body ran (firing or not) from a pass aborted by an exception caught by
the per-guild handler. -/
inductive TickOutcome where
  | evaluated (fired : Bool)
  | skippedGuild
deriving DecidableEq

/-- One per-guild pass of the voice `daily_reset` task, embedding the
timezone validation: a timezone not recognized by `pytz.all_timezones` is
replaced by UTC, with a warning, and evaluation proceeds using UTC local
time. -/
def voiceDailyTick (tzValid : Bool) (localHour utcHour : ℕ)
    (localToday utcToday : ℤ) (mem : Option ℤ) : TickOutcome :=
  let h := if tzValid then localHour else utcHour
  let d := if tzValid then localToday else utcToday
  .evaluated (voiceDailyShouldFire h d mem)

/-- The firing condition of the chat `weekly_reset` task for one guild: local
Sunday at hour exactly 12, and the in-memory `self.last_weekly_reset` entry,
when present, at least 6 whole days old (`(now - last).days < 6` skips). -/
def chatWeeklyShouldReset (weekday hour : ℕ) (mem : Option ℚ) (nowLocal : ℚ) : Bool :=
  if weekday = 6 ∧ hour = 12 then
    match mem with
    | some last => if Int.floor ((nowLocal - last) / 1440) < 6 then false else true
    | none => true
  else false

/-- One per-guild pass of the chat `weekly_reset` task: `pytz.timezone` is
called on the configured name without validation, so an unrecognized timezone
raises, the per-guild handler catches it, and the rest of that guild's pass is
skipped for the tick (there is no UTC fallback in this cog). -/
def chatWeeklyTick (tzValid : Bool) (localWeekday localHour : ℕ)
    (mem : Option ℚ) (nowLocal : ℚ) : TickOutcome :=
  if tzValid then .evaluated (chatWeeklyShouldReset localWeekday localHour mem nowLocal)
  else .skippedGuild

/-- `_calculate_score` of the star-of-the-week cog. -/
def calculateScore (chatCount voiceMinutes weightChat weightVoice : ℚ) : ℚ :=
  chatCount * weightChat + voiceMinutes * weightVoice

/-- `star_config.get` with default 1.0 for the chat weight. -/
def getWeightChat (cfg : Option ℚ) : ℚ := cfg.getD 1

/-- `star_config.get` with default 2.0 for the voice weight. -/
def getWeightVoice (cfg : Option ℚ) : ℚ := cfg.getD 2

/-- One scored candidate built by `_select_star_of_week`. -/
structure ScoredUser where
  user_id : ℕ
  score : ℚ
  voice_weekly : ℚ
  chat_weekly : ℚ
deriving DecidableEq

/-- The ordering the Python key tuple `(score, voice_weekly, chat_weekly)`
induces: lexicographic comparison, score first, then voice minutes, then
messages. -/
def StarLeP (a b : ScoredUser) : Prop :=
  a.score < b.score ∨ (a.score = b.score ∧
    (a.voice_weekly < b.voice_weekly ∨ (a.voice_weekly = b.voice_weekly ∧
      a.chat_weekly ≤ b.chat_weekly)))

instance starLePDecidable (a b : ScoredUser) : Decidable (StarLeP a b) := by
  unfold StarLeP; infer_instance

/-- Boolean form of `StarLeP`. -/
def starLe (a b : ScoredUser) : Bool := decide (StarLeP a b)

/-- `scored_users.sort(key=..., reverse=True)`: a stable sort placing greater
keys first. -/
def sortScored (l : List ScoredUser) : List ScoredUser :=
  l.mergeSort (fun a b => starLe b a)

/-- `_select_star_of_week` on an already-scored candidate list: sort by the
key tuple descending and return the first element (none when empty). -/
def selectStarOfWeek (l : List ScoredUser) : Option ScoredUser :=
  (sortScored l).head?

/-- `_get_weekly_stats`: the rows with `chat_weekly > 0` or
`voice_weekly > 0` (the bot filter is identity here, rows being keyed by
non-bot members). -/
def getWeeklyStats (s : Store) : List StatsRow :=
  s.rows.filter (fun r => decide (0 < r.chat_weekly) || decide (0 < r.voice_weekly))

/-- The scoring loop of `_select_star_of_week`: rows with both weekly
counters zero are skipped, the rest are scored. -/
def buildScored (weightChat weightVoice : ℚ) (stats : List StatsRow) : List ScoredUser :=
  (stats.filter (fun r => !(decide (r.chat_weekly = 0) && decide (r.voice_weekly = 0)))).map
    (fun r => ⟨r.user_id, calculateScore r.chat_weekly r.voice_weekly weightChat weightVoice,
               r.voice_weekly, r.chat_weekly⟩)

/-- The stores the star-of-the-week component touches: the shared guild store
and its own `star_history` collection (winner id and score). -/
structure StarState where
  store : Store
  star_history : List (ℕ × ℚ)
deriving DecidableEq

/-- `_process_star_selection` projected onto the data stores: select the
winner from the current weekly stats and append it to `star_history`.  Role
assignment and notifications touch no stored counters; no `user_stats` row
and no archive document is written. -/
def processStarSelection (weightChat weightVoice : ℚ) (st : StarState) : StarState :=
  match selectStarOfWeek (buildScored weightChat weightVoice (getWeeklyStats st.store)) with
  | none => st
  | some w => { st with star_history := st.star_history ++ [(w.user_id, w.score)] }

/-- Modelled from the spec: the weekly firing condition as the specification
sentence reads, for a guild with a recorded last reset — elapsed at least
6.5 days and anchor weekday at or after hour 12, or unconditionally elapsed
at least 7 days, or unconditionally the day after the anchor weekday. -/
def specWeeklyCondition (t nowUtc : ℚ) (weekday hour : ℕ) : Prop :=
  (13 / 2 ≤ ((nowUtc - t) / 60) / 24 ∧ weekday = 6 ∧ 12 ≤ hour) ∨
    7 ≤ ((nowUtc - t) / 60) / 24 ∨ weekday = 0

/-- The two Mongo databases the cogs connect to.  The voice cog opens
`poison_bot` and all of its reads and writes — including the
`star_configs.find_one` skip check of its weekly task — go there; the
star-of-the-week cog (like the chat cog) opens `discord_bot`, so its
`star_configs` documents live in the other database.  Each `star_configs`
collection is modelled by the list of guild ids holding a document; the
`poison_bot` guild store is the `Store` of the guild under study. -/
structure SystemState where
  poisonStarConfigs : List ℕ
  discordStarConfigs : List ℕ
  poisonStore : Store
deriving DecidableEq

/-- `_save_star_config` (star cog): upsert of the guild's configuration
document into `star_configs` of the star cog's own database, `discord_bot`.
Nothing in the repository writes `star_configs` of `poison_bot`. -/
def saveStarConfig (gid : ℕ) (sys : SystemState) : SystemState :=
  { sys with discordStarConfigs :=
      if gid ∈ sys.discordStarConfigs then sys.discordStarConfigs
      else sys.discordStarConfigs ++ [gid] }

/-- One per-guild pass of the voice `weekly_reset` task at system level: the
skip check `self.db.star_configs.find_one` consults the voice cog's own
database, `poison_bot`, so the flag fed to `voiceWeeklyTick` is membership in
`poisonStarConfigs` — not in the collection the star cog writes. -/
def voiceWeeklyTickSys (gid : ℕ) (enabled : Bool) (weekday hour : ℕ)
    (nowUtc : ℚ) (sys : SystemState) : WeeklyOutcome × SystemState :=
  let r := voiceWeeklyTick (decide (gid ∈ sys.poisonStarConfigs)) enabled
      weekday hour nowUtc sys.poisonStore
  (r.1, { sys with poisonStore := r.2 })

/-! Helper lemmas shared by the claim theorems. -/

/-- Persisting exactly the cap adds exactly the cap: the cap is positive, is a
whole number of minutes (so two-decimal rounding fixes it) and does not exceed
itself. -/
theorem incrementVoiceTime_cap (p : ℚ) :
    incrementVoiceTime maxSessionDuration p = p + maxSessionDuration := by
  norm_num [incrementVoiceTime, round2, maxSessionDuration]

/-- Once the in-memory map records a reset on date `d0`, further ticks on
date `d0` leave the evaluator state unchanged. -/
theorem dailyRun_frozen (d0 : ℤ) (s : DailyEvalState)
    (hs : s.lastDailyReset = some d0) (evs : List DailyEvent)
    (hevs : ∀ e ∈ evs, ∃ h, e = DailyEvent.tick h d0) :
    dailyRun s evs = s := by
  induction evs generalizing s with
  | nil => rfl
  | cons e rest ih =>
      obtain ⟨h, rfl⟩ := hevs e (List.mem_cons_self e rest)
      have hstep : dailyStep s (DailyEvent.tick h d0) = s := by
        simp [dailyStep, voiceDailyShouldFire, hs]
      rw [dailyRun, List.foldl_cons, hstep]
      exact ih s hs (fun e he => hevs e (List.mem_cons_of_mem _ he))

/-- Within one process run, ticks all falling on the same local date fire the
daily reset at most once. -/
theorem dailyRun_atMostOnce (d0 : ℤ) (s : DailyEvalState) (evs : List DailyEvent)
    (hevs : ∀ e ∈ evs, ∃ h, e = DailyEvent.tick h d0) :
    (dailyRun s evs).resetCount ≤ s.resetCount + 1 := by
  induction evs generalizing s with
  | nil => exact Nat.le_succ _
  | cons e rest ih =>
      obtain ⟨h, rfl⟩ := hevs e (List.mem_cons_self e rest)
      have hrest : ∀ e ∈ rest, ∃ h, e = DailyEvent.tick h d0 :=
        fun e he => hevs e (List.mem_cons_of_mem _ he)
      by_cases hf : voiceDailyShouldFire h d0 s.lastDailyReset = true
      · have hstep : dailyStep s (DailyEvent.tick h d0) =
            ⟨some d0, s.resetCount + 1⟩ := by simp [dailyStep, hf]
        rw [dailyRun, List.foldl_cons, hstep]
        have hfr := dailyRun_frozen d0 ⟨some d0, s.resetCount + 1⟩ rfl rest hrest
        unfold dailyRun at hfr
        rw [hfr]
      · have hstep : dailyStep s (DailyEvent.tick h d0) = s := by
          simp [dailyStep, hf]
        rw [dailyRun, List.foldl_cons, hstep]
        exact ih s hrest

/-- The candidate order is reflexive. -/
theorem starLeP_refl (a : ScoredUser) : StarLeP a a :=
  Or.inr ⟨rfl, Or.inr ⟨rfl, le_refl _⟩⟩

/-- The candidate order is transitive. -/
theorem starLeP_trans (a b c : ScoredUser) (h1 : StarLeP a b) (h2 : StarLeP b c) :
    StarLeP a c := by
  unfold StarLeP at *
  rcases h1 with h1 | ⟨e1, h1⟩
  · rcases h2 with h2 | ⟨e2, h2⟩
    · exact Or.inl (lt_trans h1 h2)
    · exact Or.inl (e2 ▸ h1)
  · rcases h2 with h2 | ⟨e2, h2⟩
    · exact Or.inl (e1 ▸ h2)
    · refine Or.inr ⟨e1.trans e2, ?_⟩
      rcases h1 with h1 | ⟨f1, h1⟩
      · rcases h2 with h2 | ⟨f2, h2⟩
        · exact Or.inl (lt_trans h1 h2)
        · exact Or.inl (f2 ▸ h1)
      · rcases h2 with h2 | ⟨f2, h2⟩
        · exact Or.inl (f1 ▸ h2)
        · exact Or.inr ⟨f1.trans f2, le_trans h1 h2⟩

/-- The candidate order is total. -/
theorem starLeP_total (a b : ScoredUser) : StarLeP a b ∨ StarLeP b a := by
  unfold StarLeP
  rcases lt_trichotomy a.score b.score with h | h | h
  · exact Or.inl (Or.inl h)
  · rcases lt_trichotomy a.voice_weekly b.voice_weekly with g | g | g
    · exact Or.inl (Or.inr ⟨h, Or.inl g⟩)
    · rcases le_total a.chat_weekly b.chat_weekly with k | k
      · exact Or.inl (Or.inr ⟨h, Or.inr ⟨g, k⟩⟩)
      · exact Or.inr (Or.inr ⟨h.symm, Or.inr ⟨g.symm, k⟩⟩)
    · exact Or.inr (Or.inr ⟨h.symm, Or.inl g⟩)
  · exact Or.inr (Or.inl h)

/-! Claim theorems. -/

/-- Claim C1 is violated by the code: over the interleaving join at 0,
leave at 5, join at 6, leave at 9, heartbeat flush at 10, the member was
active for 8 minutes, but only 3 minutes reach the store — the second leave
overwrites the still-pending 5-minute delta in `session_save_queue` (a plain
dictionary assignment), so the heartbeat flush persists only the 3-minute
delta. -/
theorem requeue_overwrites_pending_delta :
    activeMinutes none
      [.join 0, .leave 5, .join 6, .leave 9, .heartbeat 10] = 8 ∧
    (voiceRun ⟨none, none, 0⟩
      [.join 0, .leave 5, .join 6, .leave 9, .heartbeat 10]).persisted = 3 := by
  constructor
  · norm_num [activeMinutes]
  · norm_num [voiceRun, voiceStep, processSaveQueue, incrementVoiceTime, round2,
      maxSessionDuration, List.foldl]

/-- Claim C4 is violated by the code: at shutdown, with member 1 holding an
open 10-minute session and member 2 holding a buffered 5-minute delta in the
save queue, `_save_all_voice_sessions` persists the open session, then clears
the save queue without ever persisting its entries — member 2's delta is
discarded. -/
theorem shutdown_drain_discards_queue :
    (⟨[(1, 90)], [(2, 5)], []⟩ : CogState).session_save_queue = [(2, 5)] ∧
    (saveAllVoiceSessions 100 ⟨[(1, 90)], [(2, 5)], []⟩).session_save_queue = [] ∧
    lookupMember (saveAllVoiceSessions 100 ⟨[(1, 90)], [(2, 5)], []⟩).persisted 2 = none ∧
    lookupMember (saveAllVoiceSessions 100 ⟨[(1, 90)], [(2, 5)], []⟩).persisted 1 = some 10 := by
  refine ⟨rfl, ?_, ?_, ?_⟩ <;>
    norm_num [saveAllVoiceSessions, incrementVoiceTimeStore, upsertAdd, lookupMember,
      round2, maxSessionDuration, List.foldl]

/-- Claim C5, counterexample: a session opened at 0 and moved into the AFK
channel at minute 10080 has duration exactly `maxSessionDuration`, yet this
closing path emits no delta at all — nothing is persisted, nothing is queued,
and the session is gone. -/
theorem afk_close_at_cap_emits_nothing :
    (voiceRun ⟨none, none, 0⟩ [.join 0, .moveToAfk 10080]).persisted = 0 ∧
    (voiceRun ⟨none, none, 0⟩ [.join 0, .moveToAfk 10080]).queued = none ∧
    (voiceRun ⟨none, none, 0⟩ [.join 0, .moveToAfk 10080]).session = none := by
  refine ⟨?_, ?_, ?_⟩ <;> norm_num [voiceRun, voiceStep, maxSessionDuration, List.foldl]

/-- Claim C5, amended: a voluntary leave of a session at or past the cap
persists exactly the cap; a move into the AFK channel of such a session
closes it without emitting any delta; the sweep force-closes a session
strictly past the cap, persists exactly the cap, and removes the session
rather than reopening it. -/
theorem session_cap_close_paths (j t u : ℚ) (qo : Option ℚ) (p : ℚ)
    (hle : maxSessionDuration ≤ t - j) (hlt : maxSessionDuration < u - j) :
    voiceStep ⟨some j, qo, p⟩ (.leave t) = ⟨none, qo, p + maxSessionDuration⟩ ∧
    voiceStep ⟨some j, qo, p⟩ (.moveToAfk t) = ⟨none, qo, p⟩ ∧
    voiceStep ⟨some j, qo, p⟩ (.sweep u) = ⟨none, qo, p + maxSessionDuration⟩ := by
  have h1 : ¬ (t - j < maxSessionDuration) := not_lt.mpr hle
  refine ⟨?_, ?_, ?_⟩ <;>
    simp [voiceStep, h1, hle, hlt, incrementVoiceTime_cap]

/-- Witness for the amended claim C5 at a session opened at minute 0, left or
moved at minute 10080, swept at minute 10090. -/
theorem session_cap_close_paths_check :
    voiceStep ⟨some 0, none, 0⟩ (.leave 10080) = ⟨none, none, 0 + maxSessionDuration⟩ ∧
    voiceStep ⟨some 0, none, 0⟩ (.moveToAfk 10080) = ⟨none, none, (0 : ℚ)⟩ ∧
    voiceStep ⟨some 0, none, 0⟩ (.sweep 10090) = ⟨none, none, 0 + maxSessionDuration⟩ :=
  session_cap_close_paths 0 10080 10090 none 0
    (by norm_num [maxSessionDuration]) (by norm_num [maxSessionDuration])

/-- Claim C6: the composite score is `messages * weightChat +
voiceMinutes * weightVoice`, the weights default to 1.0 (chat) and 2.0
(voice) when absent from the configuration, and with messages 10, voice
minutes 30 and the default weights the score is exactly 70. -/
theorem composite_score_formula :
    (∀ c v wc wv : ℚ, calculateScore c v wc wv = c * wc + v * wv) ∧
    getWeightChat none = 1 ∧ getWeightVoice none = 2 ∧
    calculateScore 10 30 (getWeightChat none) (getWeightVoice none) = 70 := by
  refine ⟨fun c v wc wv => rfl, rfl, rfl, ?_⟩
  norm_num [calculateScore, getWeightChat, getWeightVoice]

/-- Claim C2, counterexample: on a store holding one row with
`voice_daily = 5 > 0`, a firing of the daily reset produces no archive record
at all and persists no last-reset timestamp — it only zeroes the bucket, so a
daily firing is not snapshot-then-zero-then-persist as the claim states. -/
theorem daily_fire_no_archive_no_timestamp :
    (0 : ℚ) < (⟨1, 0, 5, 0, 0⟩ : StatsRow).voice_daily ∧
    (resetDailyStats ⟨[⟨1, 0, 5, 0, 0⟩], [], none⟩).archives = [] ∧
    (resetDailyStats ⟨[⟨1, 0, 5, 0, 0⟩], [], none⟩).last_voice_weekly_reset = none := by
  refine ⟨by norm_num, ?_, rfl⟩
  norm_num [resetDailyStats]

/-- Claim C2, amended: a firing of the weekly reset snapshots the rows with
positive weekly counter into one archive record, zeroes the weekly bucket on
all rows, and persists the new last-reset timestamp; a second invocation of
the evaluator within the same boundary window (less than 6.5 days later) is a
no-op, so exactly one archive record and one zeroing are produced; a firing
of the daily reset only zeroes the daily bucket, producing no archive record
and persisting no timestamp. -/
theorem weekly_fire_unit_and_idempotent
    (e : Bool) (wd h wd2 h2 : ℕ) (now now2 : ℚ) (s : Store)
    (hfire : voiceWeeklyShouldReset s.last_voice_weekly_reset e now wd h = true)
    (hwin : now2 - now < (13 / 2) * 1440) :
    (voiceWeeklyTick false e wd h now s).1 = WeeklyOutcome.evaluated true ∧
    (voiceWeeklyTick false e wd h now s).2.archives =
      (if (s.rows.filter (fun r => decide (0 < r.voice_weekly))).isEmpty then s.archives
       else s.archives ++ [⟨"voice", "weekly", now,
         s.rows.filter (fun r => decide (0 < r.voice_weekly))⟩]) ∧
    (∀ r ∈ (voiceWeeklyTick false e wd h now s).2.rows, r.voice_weekly = 0) ∧
    (voiceWeeklyTick false e wd h now s).2.last_voice_weekly_reset = some now ∧
    voiceWeeklyTick false e wd2 h2 now2 (voiceWeeklyTick false e wd h now s).2 =
      (WeeklyOutcome.evaluated false, (voiceWeeklyTick false e wd h now s).2) ∧
    (∀ u : Store, (resetDailyStats u).archives = u.archives ∧
      (∀ r ∈ (resetDailyStats u).rows, r.voice_daily = 0) ∧
      (resetDailyStats u).last_voice_weekly_reset = u.last_voice_weekly_reset) := by
  have htick : voiceWeeklyTick false e wd h now s =
      (WeeklyOutcome.evaluated true,
        { resetWeeklyStats now s with last_voice_weekly_reset := some now }) := by
    simp [voiceWeeklyTick, hfire]
  have hdays : ((now2 - now) / 60) / 24 < 13 / 2 := by
    rw [div_div, div_lt_iff₀ (by norm_num : (0:ℚ) < 60 * 24)]
    calc now2 - now < 13 / 2 * 1440 := hwin
    _ = 13 / 2 * (60 * 24) := by norm_num
  have hnofire : voiceWeeklyShouldReset (some now) e now2 wd2 h2 = false := by
    simp [voiceWeeklyShouldReset, not_le.mpr hdays]
  refine ⟨by rw [htick], ?_, ?_, ?_, ?_, ?_⟩
  · rw [htick]; simp [resetWeeklyStats]
  · rw [htick]
    intro r hr
    simp [resetWeeklyStats] at hr
    obtain ⟨a, _, rfl⟩ := hr
    rfl
  · rw [htick]
  · rw [htick]
    simp [voiceWeeklyTick, hnofire]
  · intro u
    refine ⟨rfl, ?_, rfl⟩
    intro r hr
    simp [resetDailyStats] at hr
    obtain ⟨a, _, rfl⟩ := hr
    rfl

/-- Witness for the amended claim C2: a guild with one nonzero weekly row,
last reset at minute 0, firing on Sunday hour 12 at minute 10080 (exactly 7
days later). -/
theorem weekly_fire_unit_and_idempotent_check :
    (voiceWeeklyTick false true 6 12 10080 ⟨[⟨1, 0, 0, 5, 0⟩], [], some 0⟩).1 =
      WeeklyOutcome.evaluated true :=
  (weekly_fire_unit_and_idempotent true 6 12 6 12 10080 10100
    ⟨[⟨1, 0, 0, 5, 0⟩], [], some 0⟩
    (by norm_num [voiceWeeklyShouldReset]) (by norm_num)).1

/-- Claim C3, counterexample: two evaluator ticks inside the same
midnight-to-01:00 window of the same local day, separated by a process
restart, fire the daily reset twice — the last-reset record lives only in a
process-local dictionary, so persisted state is not the authority and a
restart within the window does cause a second reset. -/
theorem daily_reset_double_fire_after_restart :
    (dailyRun ⟨none, 0⟩
      [.tick 0 100, .restart, .tick 0 100]).resetCount = 2 := by
  norm_num [dailyRun, dailyStep, voiceDailyShouldFire, List.foldl]

/-- Claim C3, amended: the daily reset fires exactly when the local hour is in
the midnight-to-01:00 window and the in-memory last-reset entry differs from
today's local date; within a single process run this fires at most once per
local day, but the record is not persisted, so only restarts within the same
window break the once-per-day guarantee. -/
theorem daily_reset_window_and_memory_idempotence :
    (∀ (h : ℕ) (d : ℤ) (mem : Option ℤ),
      voiceDailyShouldFire h d mem = true ↔ (h < 1 ∧ mem ≠ some d)) ∧
    (∀ (d0 : ℤ) (s : DailyEvalState) (evs : List DailyEvent),
      (∀ e ∈ evs, ∃ h, e = DailyEvent.tick h d0) →
      (dailyRun s evs).resetCount ≤ s.resetCount + 1) := by
  constructor
  · intro h d mem
    cases mem with
    | none => by_cases hh : h < 1 <;> simp [voiceDailyShouldFire, hh]
    | some x =>
        by_cases hh : h < 1 <;> by_cases hx : x = d <;>
          simp [voiceDailyShouldFire, hh, hx]
  · exact fun d0 s evs hevs => dailyRun_atMostOnce d0 s evs hevs

/-- Witness for the amended claim C3: two same-day ticks without a restart
fire at most once. -/
theorem daily_reset_window_and_memory_idempotence_check :
    (dailyRun ⟨none, 0⟩ [DailyEvent.tick 0 5, DailyEvent.tick 1 5]).resetCount ≤
      (⟨none, 0⟩ : DailyEvalState).resetCount + 1 :=
  (daily_reset_window_and_memory_idempotence).2 5 ⟨none, 0⟩
    [DailyEvent.tick 0 5, DailyEvent.tick 1 5]
    (by intro e he
        rcases List.mem_cons.mp he with h1 | h2
        · exact ⟨0, h1⟩
        · rcases List.mem_cons.mp h2 with h3 | h4
          · exact ⟨1, h3⟩
          · cases h4)

/-- Claim C7: the selected star is a maximum of the candidate list under the
lexicographic order on (score, voiceMinutes, messages), and that order breaks
score ties by strictly preferring higher voice minutes, then higher message
counts. -/
theorem star_selection_order (l : List ScoredUser) (w : ScoredUser)
    (hw : selectStarOfWeek l = some w) :
    (∀ u ∈ l, StarLeP u w) ∧
    (∀ a b : ScoredUser, a.score = b.score → b.voice_weekly < a.voice_weekly →
      ¬ StarLeP a b ∧ StarLeP b a) ∧
    (∀ a b : ScoredUser, a.score = b.score → a.voice_weekly = b.voice_weekly →
      b.chat_weekly < a.chat_weekly → ¬ StarLeP a b ∧ StarLeP b a) := by
  refine ⟨?_, ?_, ?_⟩
  · intro u hu
    have htrans : ∀ a b c : ScoredUser,
        (fun a b : ScoredUser => starLe b a) a b →
        (fun a b : ScoredUser => starLe b a) b c →
        (fun a b : ScoredUser => starLe b a) a c := by
      intro a b c hab hbc
      simp only [starLe, decide_eq_true_eq] at *
      exact starLeP_trans _ _ _ hbc hab
    have htotal : ∀ a b : ScoredUser,
        ((fun a b : ScoredUser => starLe b a) a b ||
          (fun a b : ScoredUser => starLe b a) b a) = true := by
      intro a b
      rcases starLeP_total a b with h | h
      · simp only [starLe, Bool.or_eq_true, decide_eq_true_eq]
        exact Or.inr h
      · simp only [starLe, Bool.or_eq_true, decide_eq_true_eq]
        exact Or.inl h
    have hp : (l.mergeSort (fun a b : ScoredUser => starLe b a)).Pairwise
        (fun a b : ScoredUser => starLe b a) :=
      List.sorted_mergeSort htrans htotal l
    have hp2 : (sortScored l).Pairwise (fun a b : ScoredUser => starLe b a) := hp
    have hmem : u ∈ sortScored l := List.mem_mergeSort.mpr hu
    cases hsort : sortScored l with
    | nil => simp [selectStarOfWeek, hsort] at hw
    | cons x rest =>
        have hx : x = w := by
          rw [selectStarOfWeek, hsort] at hw
          simpa using hw
        subst hx
        rw [hsort] at hmem hp2
        rcases List.mem_cons.mp hmem with rfl | hurest
        · exact starLeP_refl u
        · have := (List.pairwise_cons.mp hp2).1 u hurest
          simpa [starLe, decide_eq_true_eq] using this
  · intro a b hs hv
    constructor
    · intro hab
      rcases hab with h | ⟨e, h | ⟨f, g⟩⟩ <;> linarith
    · exact Or.inr ⟨hs.symm, Or.inl hv⟩
  · intro a b hs hveq hc
    constructor
    · intro hab
      rcases hab with h | ⟨e, h | ⟨f, g⟩⟩ <;> linarith
    · exact Or.inr ⟨hs.symm, Or.inr ⟨hveq.symm, le_of_lt hc⟩⟩

/-- Witness for claim C7 on the single candidate with score 70, 30 voice
minutes and 10 messages. -/
theorem star_selection_order_check :
    StarLeP ⟨1, 70, 30, 10⟩ ⟨1, 70, 30, 10⟩ :=
  (star_selection_order [⟨1, 70, 30, 10⟩] ⟨1, 70, 30, 10⟩
    (by simp [selectStarOfWeek, sortScored])).1 ⟨1, 70, 30, 10⟩
    (List.mem_singleton.mpr rfl)

/-- Claim C8, counterexample: on the Monday after the anchor with only one
day elapsed since the last reset (last reset at minute 0, evaluation at
minute 1440, weekday 0, hour 5), the specification sentence read literally
says the reset fires (its day-after-anchor disjunct has no elapsed-time
condition), but the code does not fire, because fewer than 6.5 days have
elapsed. -/
theorem weekly_condition_monday_counterexample :
    specWeeklyCondition 0 1440 0 5 ∧
    voiceWeeklyShouldReset (some 0) true 1440 0 5 = false := by
  constructor
  · exact Or.inr (Or.inr rfl)
  · norm_num [voiceWeeklyShouldReset]

/-- Claim C8, amended: with a recorded last reset the weekly reset fires
exactly when at least 6.5 days have elapsed and additionally it is the anchor
weekday (Sunday) at or after hour 12, or it is the day following the anchor
(Monday), or at least 7 full days have elapsed; with no recorded last reset
it fires as soon as the feature is enabled. -/
theorem voice_weekly_fire_characterization (t nowUtc : ℚ) (e : Bool) (wd h : ℕ) :
    (voiceWeeklyShouldReset (some t) e nowUtc wd h = true ↔
      (13 / 2 ≤ ((nowUtc - t) / 60) / 24 ∧
        ((wd = 6 ∧ 12 ≤ h) ∨ wd = 0 ∨ 7 ≤ ((nowUtc - t) / 60) / 24))) ∧
    voiceWeeklyShouldReset none e nowUtc wd h = e := by
  constructor
  · unfold voiceWeeklyShouldReset
    split_ifs with h1 h2 <;> simp_all
  · rfl

/-- Claim C9, counterexample: with an unrecognized timezone, at an instant
whose UTC local time is Sunday hour 12 and with no prior reset recorded, the
chat weekly evaluator skips the community entirely (the `pytz.timezone` call
raises and the per-guild handler swallows it), whereas with a valid timezone
the very same instant would have been evaluated and fired. -/
theorem chat_invalid_timezone_skips :
    chatWeeklyTick false 6 12 none 0 = TickOutcome.skippedGuild ∧
    chatWeeklyTick true 6 12 none 0 = TickOutcome.evaluated true := by
  constructor <;> norm_num [chatWeeklyTick, chatWeeklyShouldReset]

/-- Claim C9, amended: the voice evaluators replace an unrecognized timezone
by UTC, log a warning and still evaluate the community's reset in the same
tick, but the chat evaluators have no fallback — the unrecognized timezone
raises inside the per-community handler and that community's evaluation is
skipped for the tick (without fatal propagation to other communities). -/
theorem invalid_timezone_handling (lh uh wd h : ℕ) (ld ud : ℤ)
    (mem : Option ℤ) (cm : Option ℚ) (nowL : ℚ) :
    voiceDailyTick false lh uh ld ud mem =
      TickOutcome.evaluated (voiceDailyShouldFire uh ud mem) ∧
    chatWeeklyTick false wd h cm nowL = TickOutcome.skippedGuild :=
  ⟨rfl, rfl⟩

/-- Claim C10, counterexample: guild 1 is configured through the star
component (`_save_star_config` writes its document — into `discord_bot`),
yet the next voice weekly pass over that guild does not skip it: the skip
check reads `star_configs` of `poison_bot`, which is empty, so the evaluator
fires, zeroes the guild's voice weekly bucket and archives it — the
configured guild's bucket is both reset and archived. -/
theorem star_setup_does_not_shield_weekly_reset :
    (saveStarConfig 1 ⟨[], [], ⟨[⟨1, 0, 0, 5, 0⟩], [], some 0⟩⟩).discordStarConfigs = [1] ∧
    (voiceWeeklyTickSys 1 true 6 12 10080
      (saveStarConfig 1 ⟨[], [], ⟨[⟨1, 0, 0, 5, 0⟩], [], some 0⟩⟩)).1 =
      WeeklyOutcome.evaluated true ∧
    (voiceWeeklyTickSys 1 true 6 12 10080
      (saveStarConfig 1 ⟨[], [], ⟨[⟨1, 0, 0, 5, 0⟩], [], some 0⟩⟩)).2.poisonStore.rows =
      [⟨1, 0, 0, 0, 0⟩] ∧
    (voiceWeeklyTickSys 1 true 6 12 10080
      (saveStarConfig 1 ⟨[], [], ⟨[⟨1, 0, 0, 5, 0⟩], [], some 0⟩⟩)).2.poisonStore.archives =
      [⟨"voice", "weekly", 10080, [⟨1, 0, 0, 5, 0⟩]⟩] := by
  refine ⟨rfl, ?_, ?_, ?_⟩ <;>
    norm_num [saveStarConfig, voiceWeeklyTickSys, voiceWeeklyTick,
      voiceWeeklyShouldReset, resetWeeklyStats, List.filter]

/-- Claim C10, amended: the voice weekly evaluator skips a community only
when `star_configs` of its own database (`poison_bot`) holds a document for
it, but the star component writes its configuration to `discord_bot`, never
touching `poison_bot`, so a community configured through the star component
is evaluated — and reset — like any other; the star selection pipeline itself
never changes a `user_stats` row or an archive. -/
theorem star_config_database_split (gid : ℕ) (e : Bool) (wd h : ℕ)
    (now : ℚ) (sys : SystemState) (wc wv : ℚ) (s : Store) (hist : List (ℕ × ℚ)) :
    (saveStarConfig gid sys).poisonStarConfigs = sys.poisonStarConfigs ∧
    (saveStarConfig gid sys).poisonStore = sys.poisonStore ∧
    (gid ∈ sys.poisonStarConfigs →
      voiceWeeklyTickSys gid e wd h now sys = (WeeklyOutcome.skippedStar, sys)) ∧
    (gid ∉ sys.poisonStarConfigs →
      voiceWeeklyTickSys gid e wd h now sys =
        ((voiceWeeklyTick false e wd h now sys.poisonStore).1,
          { sys with poisonStore := (voiceWeeklyTick false e wd h now sys.poisonStore).2 })) ∧
    (processStarSelection wc wv ⟨s, hist⟩).store = s := by
  refine ⟨rfl, rfl, ?_, ?_, ?_⟩
  · intro hmem
    simp [voiceWeeklyTickSys, voiceWeeklyTick, hmem]
  · intro hnmem
    simp [voiceWeeklyTickSys, hnmem]
  · unfold processStarSelection
    cases hsel : selectStarOfWeek (buildScored wc wv (getWeeklyStats s)) <;> simp

/-- Witness for claim C6 at the concrete scoring instance. -/
theorem composite_score_formula_check :
    calculateScore 10 30 (getWeightChat none) (getWeightVoice none) = 70 :=
  (composite_score_formula).2.2.2

/-- Witness for the amended claim C8 at a guild with no recorded last reset. -/
theorem voice_weekly_fire_characterization_check :
    voiceWeeklyShouldReset none true 0 0 0 = true :=
  (voice_weekly_fire_characterization 0 0 true 0 0).2

/-- Witness for the amended claim C9 at a concrete invalid-timezone tick. -/
theorem invalid_timezone_handling_check :
    chatWeeklyTick false 3 4 none 0 = TickOutcome.skippedGuild :=
  (invalid_timezone_handling 0 0 3 4 0 0 none none 0).2

/-- Witness for the amended claim C10: a guild whose id does sit in
`poison_bot.star_configs` is skipped by the weekly pass. -/
theorem star_config_database_split_check :
    voiceWeeklyTickSys 1 true 6 12 0 ⟨[1], [], ⟨[], [], none⟩⟩ =
      (WeeklyOutcome.skippedStar, ⟨[1], [], ⟨[], [], none⟩⟩) :=
  (star_config_database_split 1 true 6 12 0 ⟨[1], [], ⟨[], [], none⟩⟩ 1 2
    ⟨[], [], none⟩ []).2.2.1 (List.mem_singleton.mpr rfl)

end Poison
